import Mathlib

/-!
Shallow embedding of the Number Guessing Game engine (`GameEngine` in
`mygameflask.py.py`).  Python dictionaries keyed by player name become
association lists; the random number generator and the wall clock are
modelled by explicit parameters (the drawn secret, the offered power-up,
and the elapsed seconds as a rational).  Persistence (`AzureSQLPersistence`
and the JSON fallback) only mirrors the in-memory maps and is out of scope,
as are the metadata fields `created_at`, `powerups` and `session_id`, which
are clock/random tags never read by the game logic.
-/

namespace GuessGame

/-- Python `int(x)` on a rational: truncation toward zero. -/
def pyInt (x : ℚ) : Int := if 0 ≤ x then ⌊x⌋ else ⌈x⌉

/-- Truthiness of an optional string, as Python evaluates
`rnd.get('powerup_used')`: `None` and `""` are falsy. -/
def pyTruthyStr : Option String → Bool
  | some s => s ≠ ""
  | none => false

/-- Per-player statistics record (`self.stats[player]`). -/
structure PlayerStats where
  games_played : Int
  games_won : Int
  total_attempts : Int
  best_score : Int
  total_score : Int
deriving DecidableEq

/-- Round state (`session['active_round']`); `start_time` is replaced by
passing the elapsed seconds to `make_guess` directly. -/
structure Round where
  secret_number : Int
  attempts : Nat
  time_limit : Option Nat
  closest_distance : Int
  double_score : Bool
  extra_hints : Nat
  powerup_used : Option String
  active : Bool
  round_num : Nat
  offered_powerup : Option String
deriving DecidableEq

/-- Session state (`self.sessions[player]`). -/
structure Session where
  player : String
  max_number : Int
  difficulty_bonus : ℚ
  rounds_total : Nat
  rounds_played : Nat
  round_scores : List Int
  active_round : Option Round
  mode : String
  time_limit : Option Nat
deriving DecidableEq

/-- The in-memory state of a `GameEngine`. -/
structure EngineState where
  sessions : List (String × Session)
  stats : List (String × PlayerStats)
  achievements : List (String × List String)
deriving DecidableEq

/-- A fresh engine (empty persisted stores). -/
def initState : EngineState := ⟨[], [], []⟩

/-- Dictionary read, first binding wins. -/
def lookupKey (k : String) : List (String × α) → Option α
  | [] => none
  | p :: rest => if p.1 = k then some p.2 else lookupKey k rest

/-- Dictionary delete (`del d[k]`). -/
def eraseKey (k : String) (m : List (String × α)) : List (String × α) :=
  m.filter (fun p => p.1 ≠ k)

/-- Dictionary write (`d[k] = v`). -/
def upsert (k : String) (v : α) (m : List (String × α)) : List (String × α) :=
  (k, v) :: eraseKey k m

/-- `GameEngine._resolve_difficulty`.  `custom_max` is optional because the
request field may be absent; Python's `custom_max and int(custom_max) > 0`
is truthiness (nonzero) conjoined with positivity. -/
def resolve_difficulty (choice : String) (custom_max : Option Int) : Int × ℚ :=
  let tier5 : Int :=
    match custom_max with
    | some c => if c ≠ 0 ∧ 0 < c then c else 100
    | none => 100
  if choice = "1" then (50, 1)
  else if choice = "2" then (100, 3 / 2)
  else if choice = "3" then (500, 2)
  else if choice = "4" then (1000, 3)
  else if choice = "5" then (tier5, 1)
  else (100, 1)

/-- `GameEngine.start_game`: overwrites any prior session for the player. -/
def start_game (st : EngineState) (player mode difficulty : String)
    (custom_max : Option Int) : EngineState :=
  let md := resolve_difficulty difficulty custom_max
  let rounds : Nat := if mode = "2" then 3 else 1
  let time_limit : Option Nat := if mode = "3" then some 60 else none
  let session : Session :=
    { player := player
      max_number := md.1
      difficulty_bonus := md.2
      rounds_total := rounds
      rounds_played := 0
      round_scores := []
      active_round := none
      mode := mode
      time_limit := time_limit }
  { st with sessions := upsert player session st.sessions }

/-- The session-level body of `GameEngine.start_round`: increments
`rounds_played` and installs a fresh round.  `secret` is the value drawn by
`random.randint(1, max_number)` and `offer` the optional power-up offer
(present with probability 0.2 in the source). -/
def startRoundSession (session : Session) (secret : Int)
    (offer : Option String) : Session :=
  let round_num := session.rounds_played + 1
  let rnd : Round :=
    { secret_number := secret
      attempts := 0
      time_limit := session.time_limit
      closest_distance := session.max_number
      double_score := false
      extra_hints := 1
      powerup_used := none
      active := true
      round_num := round_num
      offered_powerup := offer }
  { session with rounds_played := round_num, active_round := some rnd }

/-- Result of `GameEngine.start_round`. -/
inductive RoundResult where
  | noSession
  | started (round_num : Nat)
deriving DecidableEq

/-- `GameEngine.start_round` (engine level). -/
def start_round (st : EngineState) (player : String) (secret : Int)
    (offer : Option String) : EngineState × RoundResult :=
  match lookupKey player st.sessions with
  | none => (st, .noSession)
  | some session =>
    let session2 := startRoundSession session secret offer
    ({ st with sessions := upsert player session2 st.sessions },
      .started session2.rounds_played)

/-- Zeroed statistics installed by `GameEngine._ensure_player_stats`. -/
def emptyStats : PlayerStats :=
  { games_played := 0, games_won := 0, total_attempts := 0
    best_score := 0, total_score := 0 }

/-- Statistics of a player after `_ensure_player_stats`. -/
def statsOf (m : List (String × PlayerStats)) (p : String) : PlayerStats :=
  (lookupKey p m).getD emptyStats

/-- The record update performed by `GameEngine.update_player_stats`. -/
def updStats (s : PlayerStats) (attempts : Nat) (won : Bool)
    (score : Int) : PlayerStats :=
  let s1 : PlayerStats :=
    { s with games_played := s.games_played + 1
             total_attempts := s.total_attempts + attempts
             total_score := s.total_score + score }
  if won then
    { s1 with games_won := s1.games_won + 1
              best_score := if score > s1.best_score then score else s1.best_score }
  else s1

/-- `GameEngine.update_player_stats` (the persistence calls it makes are
no-ops on the in-memory state). -/
def update_player_stats (m : List (String × PlayerStats)) (player : String)
    (attempts : Nat) (won : Bool) (score : Int) : List (String × PlayerStats) :=
  upsert player (updStats (statsOf m player) attempts won score) m

/-- The fixed achievement rule list of `GameEngine.check_achievements`,
with each predicate pre-evaluated.  A predicate whose body reads
`self.stats[player_name]` raises `KeyError` when the player has no stats
record; that raising evaluation is modelled as `none`. -/
def achievementRules (stats : Option PlayerStats) (attempts : Nat)
    (score : Int) (time_taken : ℚ) : List (String × Option Bool) :=
  [ ("First Blood", stats.map (fun s => decide (s.games_won = 1)))
  , ("Speed Demon", some (decide (time_taken < 10)))
  , ("Mind Reader", some (decide (attempts = 1)))
  , ("Perfectionist", some (decide (score > 150)))
  , ("Champion", stats.map (fun s => decide (s.games_won ≥ 10)))
  , ("Lightning Fast", some (decide (attempts ≤ 5)))
  , ("Show Off", some (decide (score > 200))) ]

/-- The rule loop of `GameEngine.check_achievements`: walks the rule list,
appending each not-yet-held rule whose predicate evaluates to true both to
the player's list `cur` and to the newly-unlocked list `acc`; a predicate
that raises (`none`) falls into the `try/except: pass` arm. -/
def runRules (cur acc : List String) :
    List (String × Option Bool) → List String × List String
  | [] => (cur, acc)
  | r :: rest =>
    if r.1 ∈ cur then runRules cur acc rest
    else
      match r.2 with
      | some true => runRules (cur ++ [r.1]) (acc ++ [r.1]) rest
      | _ => runRules cur acc rest

/-- `GameEngine.check_achievements` (engine level): returns the updated
achievements map and the names newly unlocked by this call. -/
def check_achievements (achMap : List (String × List String))
    (statsMap : List (String × PlayerStats)) (player : String)
    (attempts : Nat) (score : Int) (time_taken : ℚ) :
    List (String × List String) × List String :=
  let cur := (lookupKey player achMap).getD []
  let res := runRules cur []
      (achievementRules (lookupKey player statsMap) attempts score time_taken)
  (upsert player res.1 achMap, res.2)

/-- The parity hint (`attempts >= 3` branch of `get_hint`). -/
def parityHint (secret : Int) : String :=
  if secret.emod 2 = 0 then "The number is even" else "The number is odd"

/-- The quarter-of-range hint (`attempts >= 5` branch of `get_hint`);
Python `//` is floored division. -/
def quarterHint (secret maxN : Int) : String :=
  if secret ≤ maxN.fdiv 4 then "The number is in the first quarter of the range"
  else if secret ≤ maxN.fdiv 2 then "The number is in the second quarter of the range"
  else if secret ≤ (3 * maxN).fdiv 4 then "The number is in the third quarter of the range"
  else "The number is in the fourth quarter of the range"

/-- The divisibility hint (`attempts >= 7` branch of `get_hint`): the first
divisor among 3, 5, 7 that divides the secret, if any (`break` after one). -/
def divisorHint (secret : Int) : List String :=
  if secret.emod 3 = 0 then ["The number is divisible by 3"]
  else if secret.emod 5 = 0 then ["The number is divisible by 5"]
  else if secret.emod 7 = 0 then ["The number is divisible by 7"]
  else []

/-- `GameEngine.get_hint`: candidate hints accumulated in threshold order. -/
def get_hint (secret maxN : Int) (attempts : Nat) : List String :=
  (if attempts ≥ 3 then [parityHint secret] else [])
    ++ (if attempts ≥ 5 then [quarterHint secret maxN] else [])
    ++ (if attempts ≥ 7 then divisorHint secret else [])

/-- Outcome dictionary of `GameEngine.make_guess`, one constructor per
`return` site. -/
inductive GuessResult where
  | noSession
  | roundFinished
  | timeout (secret : Int)
  | notInteger
  | outOfRange (maxN : Int)
  | correct (score : Int) (attempts : Nat) (time : ℚ) (newAchievements : List String)
  | tooLow (attempts : Nat) (hints : List String)
  | tooHigh (attempts : Nat) (hints : List String)
deriving DecidableEq

/-- Whether a result is one of the accepted (non-error, non-terminal-error)
valid-guess outcomes. -/
def GuessResult.isAccepted : GuessResult → Bool
  | .correct _ _ _ _ => true
  | .tooLow _ _ => true
  | .tooHigh _ _ => true
  | _ => false

/-- Whether a result is one of the two `InvalidGuess` rejections. -/
def GuessResult.isInvalidGuess : GuessResult → Bool
  | .notInteger => true
  | .outOfRange _ => true
  | _ => false

/-- The timeout test of `make_guess`: `if rnd['time_limit']:` (truthiness,
so a zero limit is ignored) followed by `if elapsed > rnd['time_limit']:`. -/
def timeExpired (rnd : Round) (elapsed : ℚ) : Bool :=
  match rnd.time_limit with
  | some l => if l ≠ 0 ∧ (l : ℚ) < elapsed then true else false
  | none => false

/-- The scoring block of `make_guess` on a correct guess, evaluated at the
post-increment attempt count and post-update closest distance. -/
def computeScore (attempts2 : Nat) (elapsed : ℚ) (closest2 : Int)
    (difficulty_bonus : ℚ) (powerup_used : Option String)
    (double_score : Bool) : Int :=
  let base_score : Int := max 0 (100 - (attempts2 : Int))
  let time_bonus : Int := if elapsed < 50 then max 0 (50 - pyInt elapsed) else 0
  let proximity_bonus : Int := if closest2 < 20 then max 0 (20 - closest2) else 0
  let difficulty_score : Int := pyInt ((base_score : ℚ) * difficulty_bonus)
  let power_up_bonus : Int := if pyTruthyStr powerup_used then 25 else 0
  let total0 := difficulty_score + time_bonus + proximity_bonus + power_up_bonus
  if double_score then total0 * 2 else total0

/-- The hint block of `make_guess` on a wrong guess: threshold is lowered
to 2 when more than one hint remains, at most the first candidate hint is
delivered, and a delivery decrements `extra_hints`.  Returns the updated
round (with the already-computed new attempt count and closest distance)
and the delivered hint list. -/
def hintDelivery (rnd : Round) (maxN : Int) (attempts2 : Nat)
    (closest2 : Int) : Round × List String :=
  let threshold : Nat := if rnd.extra_hints > 1 then 2 else 3
  if attempts2 ≥ threshold ∧ rnd.extra_hints > 0 then
    match get_hint rnd.secret_number maxN attempts2 with
    | [] => ({ rnd with attempts := attempts2, closest_distance := closest2 }, [])
    | h :: _ =>
      ({ rnd with
         attempts := attempts2
         closest_distance := closest2
         extra_hints := rnd.extra_hints - 1 }, [h])
  else ({ rnd with attempts := attempts2, closest_distance := closest2 }, [])

/-- The body of `GameEngine.make_guess` once the session is known, starting
at the `rnd = session['active_round']` line.  `session` has already been
updated by the implicit `start_round` when no round existed.  `guess` is
`none` when `int(guess)` raises. -/
def makeGuessActive (st : EngineState) (player : String) (session : Session)
    (guess : Option Int) (elapsed : ℚ) : EngineState × GuessResult :=
  match session.active_round with
  | none => (st, .noSession)
  | some rnd =>
    if rnd.active = false then
      ({ st with sessions := upsert player session st.sessions }, .roundFinished)
    else if timeExpired rnd elapsed then
      let rnd2 := { rnd with active := false }
      let session2 := { session with
                        active_round := some rnd2
                        round_scores := session.round_scores ++ [0] }
      let stats2 := update_player_stats st.stats player rnd.attempts false 0
      ({ st with sessions := upsert player session2 st.sessions, stats := stats2 },
        .timeout rnd.secret_number)
    else
      match guess with
      | none =>
        ({ st with sessions := upsert player session st.sessions }, .notInteger)
      | some g =>
        if g < 1 ∨ g > session.max_number then
          ({ st with sessions := upsert player session st.sessions },
            .outOfRange session.max_number)
        else
          let attempts2 := rnd.attempts + 1
          let current_distance : Int := |g - rnd.secret_number|
          let closest2 : Int :=
            if current_distance < rnd.closest_distance then current_distance
            else rnd.closest_distance
          if g = rnd.secret_number then
            let rnd2 := { rnd with
                          attempts := attempts2
                          closest_distance := closest2
                          active := false }
            let total_score := computeScore attempts2 elapsed closest2
                session.difficulty_bonus rnd.powerup_used rnd.double_score
            let session2 := { session with
                              active_round := some rnd2
                              round_scores := session.round_scores ++ [total_score] }
            let stats2 := update_player_stats st.stats player attempts2 true total_score
            let achRes := check_achievements st.achievements stats2 player
                attempts2 total_score elapsed
            ({ st with sessions := upsert player session2 st.sessions,
                       stats := stats2, achievements := achRes.1 },
              .correct total_score attempts2 elapsed achRes.2)
          else
            let hintStep := hintDelivery rnd session.max_number attempts2 closest2
            let session2 := { session with active_round := some hintStep.1 }
            let res : GuessResult :=
              if g < rnd.secret_number then .tooLow attempts2 hintStep.2
              else .tooHigh attempts2 hintStep.2
            ({ st with sessions := upsert player session2 st.sessions }, res)

/-- `GameEngine.make_guess`.  `secret` and `offer` feed the implicit
`start_round` performed when the session has no active round. -/
def make_guess (st : EngineState) (player : String) (guess : Option Int)
    (elapsed : ℚ) (secret : Int) (offer : Option String) :
    EngineState × GuessResult :=
  match lookupKey player st.sessions with
  | none => (st, .noSession)
  | some session0 =>
    let session :=
      match session0.active_round with
      | none => startRoundSession session0 secret offer
      | some _ => session0
    makeGuessActive st player session guess elapsed

/-- Result of `GameEngine.end_session`. -/
inductive EndResult where
  | noSession
  | ended (total : Int) (scores : List Int)
deriving DecidableEq

/-- `GameEngine.end_session`. -/
def end_session (st : EngineState) (player : String) : EngineState × EndResult :=
  match lookupKey player st.sessions with
  | none => (st, .noSession)
  | some session =>
    let scores := session.round_scores
    ({ st with sessions := eraseKey player st.sessions },
      .ended scores.sum scores)

/-- One externally invokable engine operation, with its injected random
and clock inputs. -/
inductive Op where
  | startOp (player mode difficulty : String) (customMax : Option Int)
  | startRoundOp (player : String) (secret : Int) (offer : Option String)
  | guessOp (player : String) (g : Option Int) (elapsed : ℚ) (secret : Int)
      (offer : Option String)
  | endOp (player : String)
deriving DecidableEq

/-- State transition of one operation. -/
def stepOp (st : EngineState) : Op → EngineState
  | .startOp p m d cm => start_game st p m d cm
  | .startRoundOp p s o => (start_round st p s o).1
  | .guessOp p g e s o => (make_guess st p g e s o).1
  | .endOp p => (end_session st p).1

/-- Run a sequence of operations from the fresh engine. -/
def runOps (ops : List Op) : EngineState := ops.foldl stepOp initState

/-- Whether an operation is an explicit `start_round` call. -/
def Op.isExplicitStartRound : Op → Bool
  | .startRoundOp _ _ _ => true
  | _ => false

/-! ### Association-list lemmas -/

theorem lookupKey_upsert_self (k : String) (v : α) (m : List (String × α)) :
    lookupKey k (upsert k v m) = some v := by
  simp [lookupKey, upsert]

theorem lookupKey_eraseKey (k k' : String) (m : List (String × α)) :
    lookupKey k' (eraseKey k m) = if k' = k then none else lookupKey k' m := by
  induction m with
  | nil => simp [lookupKey, eraseKey]
  | cons p rest ih =>
    by_cases hpk : p.1 = k
    · have hstep : eraseKey k (p :: rest) = eraseKey k rest := by
        simp [eraseKey, hpk]
      rw [hstep, ih]
      by_cases hk : k' = k
      · simp [hk]
      · have hpk' : ¬ p.1 = k' := fun h => hk (h ▸ hpk)
        simp [lookupKey, hk, hpk']
    · have hstep : eraseKey k (p :: rest) = p :: eraseKey k rest := by
        simp [eraseKey, hpk]
      rw [hstep]
      by_cases hpk' : p.1 = k'
      · have hk : ¬ k' = k := fun hh => hpk (hpk'.trans hh)
        simp [lookupKey, hpk', hk]
      · simp [lookupKey, hpk', ih]

theorem lookupKey_eraseKey_self (k : String) (m : List (String × α)) :
    lookupKey k (eraseKey k m) = none := by
  simp [lookupKey_eraseKey]

theorem lookupKey_upsert (k k' : String) (v : α) (m : List (String × α)) :
    lookupKey k' (upsert k v m) =
      if k' = k then some v else lookupKey k' m := by
  by_cases h : k' = k
  · subst h; simp [lookupKey_upsert_self]
  · have hk : ¬ k = k' := fun hh => h (hh ▸ rfl)
    simp only [upsert, lookupKey, if_neg hk, if_neg h]
    rw [lookupKey_eraseKey, if_neg h]

/-! ### Claim C2: the difficulty table -/

/-- Claim C2: for every call to `start` with a valid difficulty tier, the
session's `(max_number, difficulty_bonus)` matches the fixed table: tier 1
gives (50, 1.0), tier 2 gives (100, 1.5), tier 3 gives (500, 2.0), tier 4
gives (1000, 3.0), and tier 5 gives (customMax, 1.0) when customMax is
positive and (100, 1.0) otherwise. -/
theorem start_game_difficulty_table (st : EngineState) (p mode : String)
    (cm : Option Int) :
    (∀ d : String, ∃ s : Session,
        lookupKey p (start_game st p mode d cm).sessions = some s ∧
        (s.max_number, s.difficulty_bonus) = resolve_difficulty d cm) ∧
    resolve_difficulty "1" cm = (50, 1) ∧
    resolve_difficulty "2" cm = (100, 3 / 2) ∧
    resolve_difficulty "3" cm = (500, 2) ∧
    resolve_difficulty "4" cm = (1000, 3) ∧
    (∀ c : Int, 0 < c → resolve_difficulty "5" (some c) = (c, 1)) ∧
    (∀ c : Int, c ≤ 0 → resolve_difficulty "5" (some c) = (100, 1)) ∧
    resolve_difficulty "5" none = (100, 1) := by
  refine ⟨?_, ?_, ?_, ?_, ?_, ?_, ?_, ?_⟩
  · intro d
    simp only [start_game]
    exact ⟨_, lookupKey_upsert_self _ _ _, rfl⟩
  · simp [resolve_difficulty]
  · simp [resolve_difficulty]
  · simp [resolve_difficulty]
  · simp [resolve_difficulty]
  · intro c hc
    have hcond : c ≠ 0 ∧ 0 < c := ⟨by omega, hc⟩
    simp [resolve_difficulty, hcond]
  · intro c hc
    have hcond : ¬ (c ≠ 0 ∧ 0 < c) := by omega
    simp [resolve_difficulty, hcond]
  · simp [resolve_difficulty]

/-- Witness for C2 at concrete inputs. -/
theorem start_game_difficulty_table_witness :
    (0 : Int) < 7 ∧ (-2 : Int) ≤ 0 ∧
    resolve_difficulty "5" (some 7) = (7, 1) ∧
    resolve_difficulty "5" (some (-2)) = (100, 1) := by
  refine ⟨by decide, by decide, ?_, ?_⟩
  · exact (start_game_difficulty_table initState "w" "1" (some 7)).2.2.2.2.2.1 7
      (by decide)
  · exact (start_game_difficulty_table initState "w" "1" (some (-2))).2.2.2.2.2.2.1
      (-2) (by decide)

/-! ### Claim C10: unlisted difficulty tiers default silently -/

/-- Claim C10: for every difficulty choice outside the five listed tiers,
`start` resolves to `(max_number, difficulty_bonus) = (100, 1.0)` rather
than failing. -/
theorem unlisted_difficulty_default (st : EngineState) (p mode d : String)
    (cm : Option Int)
    (hd : d ∉ (["1", "2", "3", "4", "5"] : List String)) :
    resolve_difficulty d cm = (100, 1) ∧
    ∃ s : Session,
      lookupKey p (start_game st p mode d cm).sessions = some s ∧
      s.max_number = 100 ∧ s.difficulty_bonus = 1 := by
  simp only [List.mem_cons, List.mem_singleton] at hd
  push_neg at hd
  obtain ⟨h1, h2, h3, h4, h5⟩ := hd
  have hres : resolve_difficulty d cm = (100, 1) := by
    simp [resolve_difficulty, h1, h2, h3, h4, h5]
  refine ⟨hres, ?_⟩
  simp only [start_game]
  refine ⟨_, lookupKey_upsert_self _ _ _, ?_, ?_⟩
  · show (resolve_difficulty d cm).1 = 100
    rw [hres]
  · show (resolve_difficulty d cm).2 = 1
    rw [hres]

/-- Witness for C10 at the concrete unlisted tier "9". -/
theorem unlisted_difficulty_default_witness :
    ("9" ∉ (["1", "2", "3", "4", "5"] : List String)) ∧
    (resolve_difficulty "9" none = (100, 1) ∧
     ∃ s : Session,
       lookupKey "w" (start_game initState "w" "1" "9" none).sessions = some s ∧
       s.max_number = 100 ∧ s.difficulty_bonus = 1) :=
  ⟨by decide, unlisted_difficulty_default initState "w" "1" "9" none (by decide)⟩

/-! ### Reduction lemmas for `make_guess` -/

theorem make_guess_noSession (st : EngineState) (p : String) (g : Option Int)
    (e : ℚ) (sec : Int) (off : Option String)
    (h : lookupKey p st.sessions = none) :
    make_guess st p g e sec off = (st, .noSession) := by
  simp [make_guess, h]

theorem make_guess_roundFinished (st : EngineState) (p : String)
    (session : Session) (rnd : Round) (g : Option Int) (e : ℚ) (sec : Int)
    (off : Option String)
    (hs : lookupKey p st.sessions = some session)
    (hr : session.active_round = some rnd)
    (ha : rnd.active = false) :
    make_guess st p g e sec off =
      ({ st with sessions := upsert p session st.sessions }, .roundFinished) := by
  simp [make_guess, hs, hr, makeGuessActive, ha]

/-! ### Claim C9: `end_session` -/

/-- Claim C9: for a player with an active session, `endSession` returns a
total equal to the sum of all recorded round scores and removes the session
from memory, so that a subsequent `guess` (or a second `endSession`) for
that player fails with `NoActiveSession`; for a player with no session,
`endSession` fails with `NoActiveSession`. -/
theorem end_session_spec (st : EngineState) (p : String) (session : Session)
    (hs : lookupKey p st.sessions = some session) :
    end_session st p =
      ({ st with sessions := eraseKey p st.sessions },
        .ended session.round_scores.sum session.round_scores) ∧
    lookupKey p (eraseKey p st.sessions) = none ∧
    (∀ (g : Option Int) (e : ℚ) (sec : Int) (off : Option String),
      make_guess { st with sessions := eraseKey p st.sessions } p g e sec off =
        ({ st with sessions := eraseKey p st.sessions }, .noSession)) ∧
    end_session { st with sessions := eraseKey p st.sessions } p =
      ({ st with sessions := eraseKey p st.sessions }, .noSession) ∧
    (∀ (st2 : EngineState) (p2 : String), lookupKey p2 st2.sessions = none →
      end_session st2 p2 = (st2, .noSession)) := by
  have herase : lookupKey p (eraseKey p st.sessions) = none :=
    lookupKey_eraseKey_self p st.sessions
  refine ⟨?_, herase, ?_, ?_, ?_⟩
  · simp [end_session, hs]
  · intro g e sec off
    exact make_guess_noSession _ _ _ _ _ _ herase
  · simp [end_session, herase]
  · intro st2 p2 h
    simp [end_session, h]

/-- Round used by the C9 witness. -/
def w9round : Round :=
  { secret_number := 5, attempts := 0, time_limit := none
    closest_distance := 100, double_score := false, extra_hints := 1
    powerup_used := none, active := true, round_num := 2
    offered_powerup := none }

/-- Session used by the C9 witness: two recorded round scores 80 and 95,
matching the spec scenario. -/
def w9session : Session :=
  { player := "alice", max_number := 100, difficulty_bonus := 1
    rounds_total := 3, rounds_played := 2, round_scores := [80, 95]
    active_round := some w9round, mode := "2", time_limit := none }

/-- Engine state used by the C9 witness. -/
def w9state : EngineState := ⟨[("alice", w9session)], [], []⟩

/-- Witness for C9: ending the session with scores [80, 95] yields 175. -/
theorem end_session_spec_witness :
    lookupKey "alice" w9state.sessions = some w9session ∧
    (end_session w9state "alice").2 = .ended 175 [80, 95] ∧
    lookupKey "alice" (end_session w9state "alice").1.sessions = none := by
  have h := end_session_spec w9state "alice" w9session rfl
  refine ⟨rfl, ?_, ?_⟩
  · rw [h.1]; decide
  · rw [h.1]; rfl

/-! ### Claim C6: timeout is terminal -/

/-- Claim C6: when a round has a (nonzero) time limit and the elapsed time
exceeds it, a guess marks the round inactive, appends a 0 score to the
session's round scores, records a loss in the player's stats (games_played
up by one, games_won and total_score unchanged), and returns a timeout
outcome revealing the secret number; afterwards every further guess for
that round is rejected with the round-finished error. -/
theorem timeout_terminal (st : EngineState) (p : String) (session : Session)
    (rnd : Round) (guess : Option Int) (elapsed : ℚ) (sec : Int)
    (off : Option String) (l : Nat)
    (hs : lookupKey p st.sessions = some session)
    (hr : session.active_round = some rnd)
    (ha : rnd.active = true)
    (hl : rnd.time_limit = some l) (hl0 : l ≠ 0)
    (he : (l : ℚ) < elapsed) :
    (make_guess st p guess elapsed sec off).2 = .timeout rnd.secret_number ∧
    (∃ (session2 : Session) (rnd2 : Round),
      lookupKey p (make_guess st p guess elapsed sec off).1.sessions =
        some session2 ∧
      session2.active_round = some rnd2 ∧
      rnd2.active = false ∧
      rnd2.secret_number = rnd.secret_number ∧
      session2.round_scores = session.round_scores ++ [0] ∧
      (∀ (g2 : Option Int) (e2 : ℚ) (s2 : Int) (o2 : Option String),
        (make_guess (make_guess st p guess elapsed sec off).1 p g2 e2 s2 o2).2 =
          .roundFinished)) ∧
    (statsOf (make_guess st p guess elapsed sec off).1.stats p).games_played =
      (statsOf st.stats p).games_played + 1 ∧
    (statsOf (make_guess st p guess elapsed sec off).1.stats p).games_won =
      (statsOf st.stats p).games_won ∧
    (statsOf (make_guess st p guess elapsed sec off).1.stats p).total_score =
      (statsOf st.stats p).total_score := by
  have hexp : timeExpired rnd elapsed = true := by
    simp [timeExpired, hl, hl0, he]
  have hstep : make_guess st p guess elapsed sec off =
      ({ st with
         sessions := upsert p
           { session with
             active_round := some { rnd with active := false }
             round_scores := session.round_scores ++ [0] } st.sessions
         stats := update_player_stats st.stats p rnd.attempts false 0 },
        .timeout rnd.secret_number) := by
    simp [make_guess, hs, hr, makeGuessActive, ha, hexp]
  have hstats : statsOf (update_player_stats st.stats p rnd.attempts false 0) p =
      updStats (statsOf st.stats p) rnd.attempts false 0 := by
    simp [update_player_stats, statsOf, lookupKey_upsert_self]
  rw [hstep]
  refine ⟨rfl, ⟨_, _, lookupKey_upsert_self _ _ _, rfl, rfl, rfl, rfl, ?_⟩, ?_, ?_, ?_⟩
  · intro g2 e2 s2 o2
    rw [make_guess_roundFinished _ p
      { session with
        active_round := some { rnd with active := false }
        round_scores := session.round_scores ++ [0] }
      { rnd with active := false } g2 e2 s2 o2
      (lookupKey_upsert_self _ _ _) rfl rfl]
  · rw [show ({ st with
        sessions := upsert p
          { session with
            active_round := some { rnd with active := false }
            round_scores := session.round_scores ++ [0] } st.sessions
        stats := update_player_stats st.stats p rnd.attempts false 0 } :
        EngineState).stats = update_player_stats st.stats p rnd.attempts false 0
      from rfl, hstats]
    simp [updStats]
  · rw [show ({ st with
        sessions := upsert p
          { session with
            active_round := some { rnd with active := false }
            round_scores := session.round_scores ++ [0] } st.sessions
        stats := update_player_stats st.stats p rnd.attempts false 0 } :
        EngineState).stats = update_player_stats st.stats p rnd.attempts false 0
      from rfl, hstats]
    simp [updStats]
  · rw [show ({ st with
        sessions := upsert p
          { session with
            active_round := some { rnd with active := false }
            round_scores := session.round_scores ++ [0] } st.sessions
        stats := update_player_stats st.stats p rnd.attempts false 0 } :
        EngineState).stats = update_player_stats st.stats p rnd.attempts false 0
      from rfl, hstats]
    simp [updStats]

/-- Round used by the C6 witness: timed, active, limit 60. -/
def w6round : Round :=
  { secret_number := 9, attempts := 2, time_limit := some 60
    closest_distance := 50, double_score := false, extra_hints := 1
    powerup_used := none, active := true, round_num := 1
    offered_powerup := none }

/-- Session used by the C6 witness (mode "3", time limit 60). -/
def w6session : Session :=
  { player := "bob", max_number := 50, difficulty_bonus := 1
    rounds_total := 1, rounds_played := 1, round_scores := []
    active_round := some w6round, mode := "3", time_limit := some 60 }

/-- Engine state used by the C6 witness. -/
def w6state : EngineState := ⟨[("bob", w6session)], [], []⟩

/-- Witness for C6: a guess at elapsed time 61 > 60 times the round out. -/
theorem timeout_terminal_witness :
    ((60 : Nat) ≠ 0 ∧ ((60 : Nat) : ℚ) < 61) ∧
    ((make_guess w6state "bob" (some 5) 61 9 none).2 =
        .timeout w6round.secret_number ∧
      (∃ (session2 : Session) (rnd2 : Round),
        lookupKey "bob" (make_guess w6state "bob" (some 5) 61 9 none).1.sessions =
          some session2 ∧
        session2.active_round = some rnd2 ∧
        rnd2.active = false ∧
        rnd2.secret_number = w6round.secret_number ∧
        session2.round_scores = w6session.round_scores ++ [0] ∧
        (∀ (g2 : Option Int) (e2 : ℚ) (s2 : Int) (o2 : Option String),
          (make_guess (make_guess w6state "bob" (some 5) 61 9 none).1 "bob"
              g2 e2 s2 o2).2 = .roundFinished)) ∧
      (statsOf (make_guess w6state "bob" (some 5) 61 9 none).1.stats "bob").games_played =
        (statsOf w6state.stats "bob").games_played + 1 ∧
      (statsOf (make_guess w6state "bob" (some 5) 61 9 none).1.stats "bob").games_won =
        (statsOf w6state.stats "bob").games_won ∧
      (statsOf (make_guess w6state "bob" (some 5) 61 9 none).1.stats "bob").total_score =
        (statsOf w6state.stats "bob").total_score) :=
  ⟨⟨by decide, by norm_num⟩,
    timeout_terminal w6state "bob" w6session w6round (some 5) 61 9 none 60
      rfl rfl rfl rfl (by decide) (by norm_num)⟩

/-! ### Claim C5: invalid guesses are rejected without effect -/

theorem make_guess_valid_accepted (st : EngineState) (p : String)
    (session : Session) (rnd : Round) (v : Int) (e : ℚ) (sec : Int)
    (off : Option String)
    (hs : lookupKey p st.sessions = some session)
    (hr : session.active_round = some rnd)
    (ha : rnd.active = true)
    (ht : timeExpired rnd e = false)
    (h1 : 1 ≤ v) (h2 : v ≤ session.max_number) :
    (make_guess st p (some v) e sec off).2.isAccepted = true := by
  have hrange : ¬ (v < 1 ∨ v > session.max_number) := by omega
  simp only [make_guess, hs, hr, makeGuessActive, ha, ht]
  simp only [if_neg hrange]
  simp only [Bool.true_eq_false, if_false, Bool.false_eq_true]
  split
  · rfl
  · split <;> split <;> rfl

/-- Claim C5: for every guess that is not an integer or is outside
[1, max_number], `make_guess` fails with an InvalidGuess error, the round's
attempts and closest_distance fields are unchanged, and the round remains
active — a subsequent valid guess is still accepted. -/
theorem invalid_guess_frame (st : EngineState) (p : String) (session : Session)
    (rnd : Round) (g : Option Int) (elapsed : ℚ) (sec : Int)
    (off : Option String)
    (hs : lookupKey p st.sessions = some session)
    (hr : session.active_round = some rnd)
    (ha : rnd.active = true)
    (ht : timeExpired rnd elapsed = false)
    (hbad : g = none ∨ ∃ v, g = some v ∧ (v < 1 ∨ v > session.max_number)) :
    (make_guess st p g elapsed sec off).2.isInvalidGuess = true ∧
    (make_guess st p g elapsed sec off).1 =
      { st with sessions := upsert p session st.sessions } ∧
    lookupKey p (make_guess st p g elapsed sec off).1.sessions = some session ∧
    (∃ rnd2, session.active_round = some rnd2 ∧
      rnd2.attempts = rnd.attempts ∧
      rnd2.closest_distance = rnd.closest_distance ∧
      rnd2.active = true) ∧
    (make_guess st p g elapsed sec off).1.stats = st.stats ∧
    (∀ (v : Int) (e2 : ℚ) (s2 : Int) (o2 : Option String),
      1 ≤ v → v ≤ session.max_number → timeExpired rnd e2 = false →
      (make_guess (make_guess st p g elapsed sec off).1 p
          (some v) e2 s2 o2).2.isAccepted = true) := by
  rcases hbad with hnone | ⟨v, hgv, hv⟩
  · subst hnone
    have hstep : make_guess st p none elapsed sec off =
        ({ st with sessions := upsert p session st.sessions }, .notInteger) := by
      simp [make_guess, hs, hr, makeGuessActive, ha, ht]
    rw [hstep]
    refine ⟨rfl, rfl, lookupKey_upsert_self _ _ _,
      ⟨rnd, hr, rfl, rfl, ha⟩, rfl, ?_⟩
    intro v e2 s2 o2 h1 h2 ht2
    exact make_guess_valid_accepted _ p session rnd v e2 s2 o2
      (lookupKey_upsert_self _ _ _) hr ha ht2 h1 h2
  · subst hgv
    have hstep : make_guess st p (some v) elapsed sec off =
        ({ st with sessions := upsert p session st.sessions },
          .outOfRange session.max_number) := by
      simp [make_guess, hs, hr, makeGuessActive, ha, ht, hv]
    rw [hstep]
    refine ⟨rfl, rfl, lookupKey_upsert_self _ _ _,
      ⟨rnd, hr, rfl, rfl, ha⟩, rfl, ?_⟩
    intro v2 e2 s2 o2 h1 h2 ht2
    exact make_guess_valid_accepted _ p session rnd v2 e2 s2 o2
      (lookupKey_upsert_self _ _ _) hr ha ht2 h1 h2

/-- Round used by the C5 witness. -/
def w5round : Round :=
  { secret_number := 20, attempts := 2, time_limit := none
    closest_distance := 50, double_score := false, extra_hints := 1
    powerup_used := none, active := true, round_num := 1
    offered_powerup := none }

/-- Session used by the C5 witness (max_number 50). -/
def w5session : Session :=
  { player := "carol", max_number := 50, difficulty_bonus := 1
    rounds_total := 1, rounds_played := 1, round_scores := []
    active_round := some w5round, mode := "1", time_limit := none }

/-- Engine state used by the C5 witness. -/
def w5state : EngineState := ⟨[("carol", w5session)], [], []⟩

/-- Witness for C5: guess 99 on a max-50 session is rejected untouched. -/
theorem invalid_guess_frame_witness :
    (some (99 : Int) = none ∨
      ∃ v, some (99 : Int) = some v ∧ (v < 1 ∨ v > w5session.max_number)) ∧
    ((make_guess w5state "carol" (some 99) 0 5 none).2.isInvalidGuess = true ∧
      (make_guess w5state "carol" (some 99) 0 5 none).1 =
        { w5state with sessions := upsert "carol" w5session w5state.sessions } ∧
      lookupKey "carol" (make_guess w5state "carol" (some 99) 0 5 none).1.sessions =
        some w5session ∧
      (∃ rnd2, w5session.active_round = some rnd2 ∧
        rnd2.attempts = w5round.attempts ∧
        rnd2.closest_distance = w5round.closest_distance ∧
        rnd2.active = true) ∧
      (make_guess w5state "carol" (some 99) 0 5 none).1.stats = w5state.stats ∧
      (∀ (v : Int) (e2 : ℚ) (s2 : Int) (o2 : Option String),
        1 ≤ v → v ≤ w5session.max_number → timeExpired w5round e2 = false →
        (make_guess (make_guess w5state "carol" (some 99) 0 5 none).1 "carol"
            (some v) e2 s2 o2).2.isAccepted = true)) :=
  ⟨Or.inr ⟨99, rfl, by decide⟩,
    invalid_guess_frame w5state "carol" w5session w5round (some 99) 0 5 none
      rfl rfl rfl rfl (Or.inr ⟨99, rfl, by decide⟩)⟩

/-! ### Claim C1: scoring a solved round -/

theorem make_guess_win (st : EngineState) (p : String) (session : Session)
    (rnd : Round) (g : Int) (elapsed : ℚ) (sec : Int) (off : Option String)
    (hs : lookupKey p st.sessions = some session)
    (hr : session.active_round = some rnd)
    (ha : rnd.active = true)
    (ht : timeExpired rnd elapsed = false)
    (hrange : ¬ (g < 1 ∨ g > session.max_number))
    (heq : g = rnd.secret_number) :
    make_guess st p (some g) elapsed sec off =
      (let closest2 : Int :=
         if |g - rnd.secret_number| < rnd.closest_distance
         then |g - rnd.secret_number| else rnd.closest_distance
       let rnd2 : Round := { rnd with
         attempts := rnd.attempts + 1
         closest_distance := closest2
         active := false }
       let total := computeScore (rnd.attempts + 1) elapsed closest2
         session.difficulty_bonus rnd.powerup_used rnd.double_score
       let session2 := { session with
         active_round := some rnd2
         round_scores := session.round_scores ++ [total] }
       let stats2 := update_player_stats st.stats p (rnd.attempts + 1) true total
       let ach := check_achievements st.achievements stats2 p (rnd.attempts + 1)
         total elapsed
       ({ st with
          sessions := upsert p session2 st.sessions
          stats := stats2
          achievements := ach.1 },
         .correct total (rnd.attempts + 1) elapsed ach.2)) := by
  simp only [make_guess, hs, hr, makeGuessActive, ha, ht]
  simp only [if_neg hrange]
  simp only [Bool.true_eq_false, if_false, Bool.false_eq_true]
  rw [if_pos heq]

theorem computeScore_eq (attempts2 : Nat) (elapsed : ℚ) (closest2 : Int)
    (bonus : ℚ) (pu : Option String) (db : Bool)
    (hb : 0 ≤ bonus) (he : 0 ≤ elapsed) :
    computeScore attempts2 elapsed closest2 bonus pu db =
      (let base : Int := max 0 (100 - (attempts2 : Int))
       let difficulty_score : Int := ⌊(base : ℚ) * bonus⌋
       let time_bonus : Int := if elapsed < 50 then max 0 (50 - ⌊elapsed⌋) else 0
       let proximity_bonus : Int := if closest2 < 20 then max 0 (20 - closest2) else 0
       let powerup_bonus : Int := if pyTruthyStr pu then 25 else 0
       let tot0 := difficulty_score + time_bonus + proximity_bonus + powerup_bonus
       if db then tot0 * 2 else tot0) ∧
    0 ≤ computeScore attempts2 elapsed closest2 bonus pu db := by
  have hbase : (0 : ℚ) ≤ ((max 0 (100 - (attempts2 : Int)) : Int) : ℚ) := by
    have : (0 : Int) ≤ max 0 (100 - (attempts2 : Int)) := le_max_left _ _
    exact_mod_cast this
  have hprod : (0 : ℚ) ≤ ((max 0 (100 - (attempts2 : Int)) : Int) : ℚ) * bonus :=
    mul_nonneg hbase hb
  have hpy1 : pyInt (((max 0 (100 - (attempts2 : Int)) : Int) : ℚ) * bonus) =
      ⌊((max 0 (100 - (attempts2 : Int)) : Int) : ℚ) * bonus⌋ := by
    unfold pyInt
    rw [if_pos hprod]
  have hpy2 : pyInt elapsed = ⌊elapsed⌋ := by
    unfold pyInt
    rw [if_pos he]
  constructor
  · simp only [computeScore, hpy1, hpy2]
  · have hd : (0 : Int) ≤ ⌊((max 0 (100 - (attempts2 : Int)) : Int) : ℚ) * bonus⌋ :=
      Int.floor_nonneg.mpr hprod
    have htb : (0 : Int) ≤ if elapsed < 50 then max 0 (50 - pyInt elapsed) else 0 := by
      split
      · exact le_max_left _ _
      · exact le_refl _
    have hpb : (0 : Int) ≤ if closest2 < 20 then max 0 (20 - closest2) else 0 := by
      split
      · exact le_max_left _ _
      · exact le_refl _
    have hpu : (0 : Int) ≤ if pyTruthyStr pu then 25 else 0 := by
      split
      · omega
      · omega
    simp only [computeScore, hpy1]
    split
    · have := add_nonneg (add_nonneg (add_nonneg hd htb) hpb) hpu
      omega
    · exact add_nonneg (add_nonneg (add_nonneg hd htb) hpb) hpu

/-- Claim C1: every round solved by guessing the secret exactly transitions
to inactive and returns a non-negative integer score equal to
difficulty_score + time_bonus + proximity_bonus + powerup_bonus (doubled
when the double_score flag is set), with base = max(0, 100 - attempts),
time_bonus = max(0, 50 - floor(elapsed)) for elapsed < 50 else 0,
proximity_bonus = max(0, 20 - closest_distance) for closest_distance < 20
else 0, difficulty_score = floor(base * difficulty_bonus), and
powerup_bonus = 25 exactly when a power-up was consumed this round. -/
theorem win_scoring (st : EngineState) (p : String) (session : Session)
    (rnd : Round) (g : Int) (elapsed : ℚ) (sec : Int) (off : Option String)
    (hs : lookupKey p st.sessions = some session)
    (hr : session.active_round = some rnd)
    (ha : rnd.active = true)
    (ht : timeExpired rnd elapsed = false)
    (h1 : 1 ≤ g) (h2 : g ≤ session.max_number)
    (heq : g = rnd.secret_number)
    (hb : 0 ≤ session.difficulty_bonus)
    (he : 0 ≤ elapsed) :
    ∃ (session2 : Session) (rnd2 : Round) (total : Int) (newAchs : List String),
      (make_guess st p (some g) elapsed sec off).2 =
        .correct total (rnd.attempts + 1) elapsed newAchs ∧
      lookupKey p (make_guess st p (some g) elapsed sec off).1.sessions =
        some session2 ∧
      session2.active_round = some rnd2 ∧
      rnd2.active = false ∧
      session2.round_scores = session.round_scores ++ [total] ∧
      total =
        (let base : Int := max 0 (100 - ((rnd.attempts + 1 : Nat) : Int))
         let difficulty_score : Int := ⌊(base : ℚ) * session.difficulty_bonus⌋
         let time_bonus : Int := if elapsed < 50 then max 0 (50 - ⌊elapsed⌋) else 0
         let proximity_bonus : Int :=
           if rnd2.closest_distance < 20 then max 0 (20 - rnd2.closest_distance)
           else 0
         let powerup_bonus : Int := if pyTruthyStr rnd2.powerup_used then 25 else 0
         let tot0 := difficulty_score + time_bonus + proximity_bonus + powerup_bonus
         if rnd2.double_score then tot0 * 2 else tot0) ∧
      0 ≤ total := by
  have hrange : ¬ (g < 1 ∨ g > session.max_number) := by omega
  rw [make_guess_win st p session rnd g elapsed sec off hs hr ha ht hrange heq]
  refine ⟨_, _, _, _, rfl, lookupKey_upsert_self _ _ _, rfl, rfl, rfl, ?_, ?_⟩
  · exact (computeScore_eq (rnd.attempts + 1) elapsed _ session.difficulty_bonus
      rnd.powerup_used rnd.double_score hb he).1
  · exact (computeScore_eq (rnd.attempts + 1) elapsed _ session.difficulty_bonus
      rnd.powerup_used rnd.double_score hb he).2

/-- Round used by the C1 witness. -/
def w1round : Round :=
  { secret_number := 7, attempts := 0, time_limit := none
    closest_distance := 50, double_score := false, extra_hints := 1
    powerup_used := none, active := true, round_num := 1
    offered_powerup := none }

/-- Session used by the C1 witness. -/
def w1session : Session :=
  { player := "dave", max_number := 50, difficulty_bonus := 1
    rounds_total := 1, rounds_played := 1, round_scores := []
    active_round := some w1round, mode := "1", time_limit := none }

/-- Engine state used by the C1 witness. -/
def w1state : EngineState := ⟨[("dave", w1session)], [], []⟩

/-- Witness for C1: guessing the secret 7 first try at elapsed 0. -/
theorem win_scoring_witness :
    ((1 : Int) ≤ 7 ∧ (7 : Int) ≤ w1session.max_number ∧
      (0 : ℚ) ≤ w1session.difficulty_bonus ∧ (0 : ℚ) ≤ 0) ∧
    (∃ (session2 : Session) (rnd2 : Round) (total : Int) (newAchs : List String),
      (make_guess w1state "dave" (some 7) 0 7 none).2 =
        .correct total (w1round.attempts + 1) 0 newAchs ∧
      lookupKey "dave" (make_guess w1state "dave" (some 7) 0 7 none).1.sessions =
        some session2 ∧
      session2.active_round = some rnd2 ∧
      rnd2.active = false ∧
      session2.round_scores = w1session.round_scores ++ [total] ∧
      total =
        (let base : Int := max 0 (100 - ((w1round.attempts + 1 : Nat) : Int))
         let difficulty_score : Int := ⌊(base : ℚ) * w1session.difficulty_bonus⌋
         let time_bonus : Int := if (0 : ℚ) < 50 then max 0 (50 - ⌊(0 : ℚ)⌋) else 0
         let proximity_bonus : Int :=
           if rnd2.closest_distance < 20 then max 0 (20 - rnd2.closest_distance)
           else 0
         let powerup_bonus : Int := if pyTruthyStr rnd2.powerup_used then 25 else 0
         let tot0 := difficulty_score + time_bonus + proximity_bonus + powerup_bonus
         if rnd2.double_score then tot0 * 2 else tot0) ∧
      0 ≤ total) :=
  ⟨⟨by decide, by decide, by norm_num [w1session], le_refl 0⟩,
    win_scoring w1state "dave" w1session w1round 7 0 7 none
      rfl rfl rfl rfl (by decide) (by decide) rfl (by norm_num [w1session]) (le_refl 0)⟩

/-! ### Claim C3: hint thresholds and the hint budget -/

theorem make_guess_wrong (st : EngineState) (p : String) (session : Session)
    (rnd : Round) (g : Int) (elapsed : ℚ) (sec : Int) (off : Option String)
    (hs : lookupKey p st.sessions = some session)
    (hr : session.active_round = some rnd)
    (ha : rnd.active = true)
    (ht : timeExpired rnd elapsed = false)
    (hrange : ¬ (g < 1 ∨ g > session.max_number))
    (hne : ¬ g = rnd.secret_number) :
    make_guess st p (some g) elapsed sec off =
      (let closest2 : Int :=
         if |g - rnd.secret_number| < rnd.closest_distance
         then |g - rnd.secret_number| else rnd.closest_distance
       let hintStep := hintDelivery rnd session.max_number (rnd.attempts + 1)
         closest2
       let session2 := { session with active_round := some hintStep.1 }
       ({ st with sessions := upsert p session2 st.sessions },
        if g < rnd.secret_number then .tooLow (rnd.attempts + 1) hintStep.2
        else .tooHigh (rnd.attempts + 1) hintStep.2)) := by
  simp only [make_guess, hs, hr, makeGuessActive, ha, ht]
  simp only [if_neg hrange]
  simp only [Bool.true_eq_false, if_false, Bool.false_eq_true]
  rw [if_neg hne]

theorem get_hint_eq_nil (s m : Int) (a : Nat) (h : a < 3) :
    get_hint s m a = [] := by
  have h3 : ¬ a ≥ 3 := by omega
  have h5 : ¬ a ≥ 5 := by omega
  have h7 : ¬ a ≥ 7 := by omega
  simp [get_hint, h3, h5, h7]

theorem get_hint_cons (s m : Int) (a : Nat) (h : a ≥ 3) :
    ∃ rest, get_hint s m a = parityHint s :: rest := by
  simp only [get_hint, if_pos h]
  exact ⟨(if a ≥ 5 then [quarterHint s m] else []) ++
    (if a ≥ 7 then divisorHint s else []), by simp⟩

theorem hintDelivery_spec (rnd : Round) (maxN closest2 : Int) :
    (hintDelivery rnd maxN (rnd.attempts + 1) closest2).2.length ≤ 1 ∧
    ((hintDelivery rnd maxN (rnd.attempts + 1) closest2).2 = [] ↔
      ¬ (3 ≤ rnd.attempts + 1 ∧ 0 < rnd.extra_hints)) ∧
    ((hintDelivery rnd maxN (rnd.attempts + 1) closest2).2 ≠ [] →
      (hintDelivery rnd maxN (rnd.attempts + 1) closest2).2 =
        [parityHint rnd.secret_number]) ∧
    (hintDelivery rnd maxN (rnd.attempts + 1) closest2).1.extra_hints =
      rnd.extra_hints - (hintDelivery rnd maxN (rnd.attempts + 1) closest2).2.length ∧
    (hintDelivery rnd maxN (rnd.attempts + 1) closest2).1.attempts =
      rnd.attempts + 1 ∧
    (hintDelivery rnd maxN (rnd.attempts + 1) closest2).1.closest_distance =
      closest2 ∧
    (hintDelivery rnd maxN (rnd.attempts + 1) closest2).1.active = rnd.active := by
  by_cases h3 : 3 ≤ rnd.attempts + 1
  · by_cases hb : 0 < rnd.extra_hints
    · obtain ⟨rest, hcons⟩ := get_hint_cons rnd.secret_number maxN
        (rnd.attempts + 1) h3
      have hguard : rnd.attempts + 1 ≥ (if rnd.extra_hints > 1 then 2 else 3) ∧
          rnd.extra_hints > 0 := by
        refine ⟨?_, hb⟩
        split <;> omega
      simp only [hintDelivery, if_pos hguard, hcons]
      refine ⟨by simp, ?_, by simp, by trivial, by trivial, by trivial, by trivial⟩
      simp [h3, hb]
    · have hguard : ¬ (rnd.attempts + 1 ≥ (if rnd.extra_hints > 1 then 2 else 3) ∧
          rnd.extra_hints > 0) := by
        rintro ⟨_, hx⟩
        omega
      simp only [hintDelivery, if_neg hguard]
      refine ⟨by simp, ?_, by simp, by simp, by trivial, by trivial, by trivial⟩
      simp [hb]
  · by_cases hguard : rnd.attempts + 1 ≥ (if rnd.extra_hints > 1 then 2 else 3) ∧
        rnd.extra_hints > 0
    · have hnil : get_hint rnd.secret_number maxN (rnd.attempts + 1) = [] :=
        get_hint_eq_nil _ _ _ (by omega)
      simp only [hintDelivery, if_pos hguard, hnil]
      refine ⟨by simp, ?_, by simp, by simp, by trivial, by trivial, by trivial⟩
      simp [h3]
    · simp only [hintDelivery, if_neg hguard]
      refine ⟨by simp, ?_, by simp, by simp, by trivial, by trivial, by trivial⟩
      simp [h3]

/-- Claim C3: for every incorrect valid guess, at most one hint string is
returned; hints unlock at attempt thresholds (even/odd at ≥ 3, quarter of
range at ≥ 5, divisibility by 3/5/7 at ≥ 7, in that candidate order), each
delivered hint consumes one unit of the hint budget (`extra_hints`,
initialized to 1 by `start_round`), and once the budget is zero no further
hints are given even past a threshold. -/
theorem wrong_guess_hints (st : EngineState) (p : String) (session : Session)
    (rnd : Round) (g : Int) (elapsed : ℚ) (sec : Int) (off : Option String)
    (hs : lookupKey p st.sessions = some session)
    (hr : session.active_round = some rnd)
    (ha : rnd.active = true)
    (ht : timeExpired rnd elapsed = false)
    (h1 : 1 ≤ g) (h2 : g ≤ session.max_number)
    (hne : ¬ g = rnd.secret_number) :
    ∃ (session2 : Session) (rnd2 : Round) (hl : List String),
      ((make_guess st p (some g) elapsed sec off).2 =
          .tooLow (rnd.attempts + 1) hl ∨
        (make_guess st p (some g) elapsed sec off).2 =
          .tooHigh (rnd.attempts + 1) hl) ∧
      hl.length ≤ 1 ∧
      lookupKey p (make_guess st p (some g) elapsed sec off).1.sessions =
        some session2 ∧
      session2.active_round = some rnd2 ∧
      rnd2.active = rnd.active ∧
      (hl = [] ↔ ¬ (3 ≤ rnd.attempts + 1 ∧ 0 < rnd.extra_hints)) ∧
      (hl ≠ [] → hl = [parityHint rnd.secret_number]) ∧
      rnd2.extra_hints = rnd.extra_hints - hl.length ∧
      (rnd.extra_hints = 0 → hl = [] ∧ rnd2.extra_hints = 0) ∧
      (∀ (s m : Int) (a : Nat), get_hint s m a =
        (if a ≥ 3 then [parityHint s] else []) ++
        (if a ≥ 5 then [quarterHint s m] else []) ++
        (if a ≥ 7 then divisorHint s else [])) ∧
      (∀ (s4 : Session) (sec4 : Int) (off4 : Option String),
        ((startRoundSession s4 sec4 off4).active_round.map Round.extra_hints) =
          some 1) := by
  have hrange : ¬ (g < 1 ∨ g > session.max_number) := by omega
  rw [make_guess_wrong st p session rnd g elapsed sec off hs hr ha ht hrange hne]
  obtain ⟨hlen, hiff, hhead, hext, hatt, hclo, hact⟩ :=
    hintDelivery_spec rnd session.max_number
      (if |g - rnd.secret_number| < rnd.closest_distance
       then |g - rnd.secret_number| else rnd.closest_distance)
  refine ⟨_, _, _, ?_, hlen, lookupKey_upsert_self _ _ _, rfl, hact, hiff, hhead,
    hext, ?_, ?_, ?_⟩
  · by_cases hlt : g < rnd.secret_number
    · left
      simp [hlt]
    · right
      simp [hlt]
  · intro h0
    have hnil : (hintDelivery rnd session.max_number (rnd.attempts + 1)
        (if |g - rnd.secret_number| < rnd.closest_distance
         then |g - rnd.secret_number| else rnd.closest_distance)).2 = [] := by
      apply hiff.mpr
      rintro ⟨_, hx⟩
      omega
    refine ⟨hnil, ?_⟩
    rw [hext, hnil, h0]
    rfl
  · intro s m a
    rfl
  · intro s4 sec4 off4
    rfl

/-- Round used by the C3 witness: third attempt incoming, budget 1. -/
def w3round : Round :=
  { secret_number := 10, attempts := 2, time_limit := none
    closest_distance := 50, double_score := false, extra_hints := 1
    powerup_used := none, active := true, round_num := 1
    offered_powerup := none }

/-- Session used by the C3 witness. -/
def w3session : Session :=
  { player := "erin", max_number := 50, difficulty_bonus := 1
    rounds_total := 1, rounds_played := 1, round_scores := []
    active_round := some w3round, mode := "1", time_limit := none }

/-- Engine state used by the C3 witness. -/
def w3state : EngineState := ⟨[("erin", w3session)], [], []⟩

/-- Witness for C3: a wrong guess on the third attempt with budget 1. -/
theorem wrong_guess_hints_witness :
    ((1 : Int) ≤ 3 ∧ (3 : Int) ≤ w3session.max_number ∧
      ¬ (3 : Int) = w3round.secret_number) ∧
    (∃ (session2 : Session) (rnd2 : Round) (hl : List String),
      ((make_guess w3state "erin" (some 3) 0 9 none).2 =
          .tooLow (w3round.attempts + 1) hl ∨
        (make_guess w3state "erin" (some 3) 0 9 none).2 =
          .tooHigh (w3round.attempts + 1) hl) ∧
      hl.length ≤ 1 ∧
      lookupKey "erin" (make_guess w3state "erin" (some 3) 0 9 none).1.sessions =
        some session2 ∧
      session2.active_round = some rnd2 ∧
      rnd2.active = w3round.active ∧
      (hl = [] ↔ ¬ (3 ≤ w3round.attempts + 1 ∧ 0 < w3round.extra_hints)) ∧
      (hl ≠ [] → hl = [parityHint w3round.secret_number]) ∧
      rnd2.extra_hints = w3round.extra_hints - hl.length ∧
      (w3round.extra_hints = 0 → hl = [] ∧ rnd2.extra_hints = 0) ∧
      (∀ (s m : Int) (a : Nat), get_hint s m a =
        (if a ≥ 3 then [parityHint s] else []) ++
        (if a ≥ 5 then [quarterHint s m] else []) ++
        (if a ≥ 7 then divisorHint s else [])) ∧
      (∀ (s4 : Session) (sec4 : Int) (off4 : Option String),
        ((startRoundSession s4 sec4 off4).active_round.map Round.extra_hints) =
          some 1)) :=
  ⟨⟨by decide, by decide, by decide⟩,
    wrong_guess_hints w3state "erin" w3session w3round 3 0 9 none
      rfl rfl rfl rfl (by decide) (by decide) (by decide)⟩

/-! ### Claim C7: best_score is a running maximum of winning scores -/

/-- Run a sequence of `update_player_stats` calls for one player; each
element of the list is (attempts, won, score) for one finished round. -/
def runUpdates (m : List (String × PlayerStats)) (p : String) :
    List (Nat × Bool × Int) → List (String × PlayerStats)
  | [] => m
  | r :: rest => runUpdates (update_player_stats m p r.1 r.2.1 r.2.2) p rest

/-- Modelled from the spec's words: the running maximum of the scores of
the rounds that ended in a win, seeded with the starting best score. -/
def runningMaxOfWins (b : Int) : List (Nat × Bool × Int) → Int
  | [] => b
  | r :: rest => runningMaxOfWins (if r.2.1 then max b r.2.2 else b) rest

/-- The best score currently recorded for a player. -/
def bestOf (m : List (String × PlayerStats)) (p : String) : Int :=
  (statsOf m p).best_score

theorem bestOf_update (m : List (String × PlayerStats)) (p : String)
    (att : Nat) (won : Bool) (sc : Int) :
    bestOf (update_player_stats m p att won sc) p =
      if won then max (bestOf m p) sc else bestOf m p := by
  unfold bestOf update_player_stats
  rw [show statsOf (upsert p (updStats (statsOf m p) att won sc) m) p =
      updStats (statsOf m p) att won sc by
    unfold statsOf
    rw [lookupKey_upsert_self]
    rfl]
  cases won with
  | false => simp [updStats]
  | true =>
    simp only [updStats, if_true]
    simp only [max_def]
    split <;> split <;> first | rfl | omega

/-- Claim C7: for every player and every sequence of rounds, best_score is
monotonically non-decreasing and equals the running maximum of the
per-round scores of rounds that ended in a win; losing rounds never change
best_score. -/
theorem best_score_running_max (m : List (String × PlayerStats)) (p : String)
    (rounds : List (Nat × Bool × Int)) :
    bestOf (runUpdates m p rounds) p = runningMaxOfWins (bestOf m p) rounds ∧
    bestOf m p ≤ bestOf (runUpdates m p rounds) p ∧
    (∀ (att : Nat) (sc : Int),
      bestOf (update_player_stats m p att false sc) p = bestOf m p) := by
  have hmain : ∀ (rs : List (Nat × Bool × Int)) (m2 : List (String × PlayerStats)),
      bestOf (runUpdates m2 p rs) p = runningMaxOfWins (bestOf m2 p) rs := by
    intro rs
    induction rs with
    | nil => intro m2; rfl
    | cons r rest ih =>
      intro m2
      simp only [runUpdates, runningMaxOfWins]
      rw [ih, bestOf_update]
  have hmono : ∀ (rs : List (Nat × Bool × Int)) (b : Int),
      b ≤ runningMaxOfWins b rs := by
    intro rs
    induction rs with
    | nil => intro b; exact le_refl b
    | cons r rest ih =>
      intro b
      refine le_trans ?_ (ih _)
      split
      · exact le_max_left _ _
      · exact le_refl _
  refine ⟨hmain rounds m, ?_, ?_⟩
  · rw [hmain rounds m]
    exact hmono rounds _
  · intro att sc
    rw [bestOf_update]
    simp

/-! ### Claim C8: achievement unlocking is monotonic -/

theorem runRules_spec (rules : List (String × Option Bool)) :
    ∀ (cur acc : List String),
      ∃ delta : List String,
        runRules cur acc rules = (cur ++ delta, acc ++ delta) ∧
        delta.Sublist (rules.map Prod.fst) ∧
        (∀ n ∈ delta, n ∉ cur ∧ (n, some true) ∈ rules) := by
  induction rules with
  | nil =>
    intro cur acc
    exact ⟨[], by simp [runRules], by simp, by simp⟩
  | cons r rest ih =>
    intro cur acc
    by_cases hmem : r.1 ∈ cur
    · obtain ⟨delta, heq, hsub, hmemd⟩ := ih cur acc
      refine ⟨delta, ?_, hsub.cons r.1, ?_⟩
      · simp only [runRules, if_pos hmem]
        exact heq
      · intro n hn
        obtain ⟨hn1, hn2⟩ := hmemd n hn
        exact ⟨hn1, List.mem_cons_of_mem _ hn2⟩
    · cases hres : r.2 with
      | none =>
        obtain ⟨delta, heq, hsub, hmemd⟩ := ih cur acc
        refine ⟨delta, ?_, hsub.cons r.1, ?_⟩
        · simp only [runRules, if_neg hmem, hres]
          exact heq
        · intro n hn
          obtain ⟨hn1, hn2⟩ := hmemd n hn
          exact ⟨hn1, List.mem_cons_of_mem _ hn2⟩
      | some b =>
        cases b with
        | false =>
          obtain ⟨delta, heq, hsub, hmemd⟩ := ih cur acc
          refine ⟨delta, ?_, hsub.cons r.1, ?_⟩
          · simp only [runRules, if_neg hmem, hres]
            exact heq
          · intro n hn
            obtain ⟨hn1, hn2⟩ := hmemd n hn
            exact ⟨hn1, List.mem_cons_of_mem _ hn2⟩
        | true =>
          obtain ⟨delta, heq, hsub, hmemd⟩ := ih (cur ++ [r.1]) (acc ++ [r.1])
          refine ⟨r.1 :: delta, ?_, hsub.cons₂ r.1, ?_⟩
          · simp only [runRules, if_neg hmem, hres]
            rw [heq]
            simp
          · intro n hn
            rcases List.mem_cons.mp hn with h | h
            · subst h
              refine ⟨hmem, ?_⟩
              have hr : (r.1, (some true : Option Bool)) = r := by
                rw [← hres]
              rw [hr]
              exact List.mem_cons_self _ _
            · obtain ⟨hn1, hn2⟩ := hmemd n h
              exact ⟨fun hc => hn1 (List.mem_append_left _ hc),
                List.mem_cons_of_mem _ hn2⟩

theorem firstBlood_needs_stats (att : Nat) (sc : Int) (t : ℚ) :
    ("First Blood", (some true : Option Bool)) ∉ achievementRules none att sc t := by
  intro h
  simp [achievementRules] at h

theorem champion_needs_stats (att : Nat) (sc : Int) (t : ℚ) :
    ("Champion", (some true : Option Bool)) ∉ achievementRules none att sc t := by
  intro h
  simp [achievementRules] at h

/-- Claim C8: achievement unlocking is monotonic — every achievement in the
player's set before an evaluation call is still there afterwards, newly
satisfied rules are appended in rule-evaluation order (the new names form a
sublist of the rule list), and a rule whose predicate raises (modelled as
`none`, as happens to the two stats-reading rules when the player has no
stats record) is treated as false rather than failing the call. -/
theorem achievements_monotonic (achs : List String)
    (rules : List (String × Option Bool))
    (achMap : List (String × List String))
    (statsMap : List (String × PlayerStats)) (p : String)
    (att : Nat) (sc : Int) (t : ℚ) :
    (∃ delta : List String,
      runRules achs [] rules = (achs ++ delta, delta) ∧
      delta.Sublist (rules.map Prod.fst) ∧
      (∀ n ∈ delta, n ∉ achs ∧ (n, some true) ∈ rules)) ∧
    (∀ a ∈ (lookupKey p achMap).getD [],
      a ∈ (lookupKey p (check_achievements achMap statsMap p att sc t).1).getD []) ∧
    (lookupKey p statsMap = none →
      "First Blood" ∉ (check_achievements achMap statsMap p att sc t).2 ∧
      "Champion" ∉ (check_achievements achMap statsMap p att sc t).2) := by
  refine ⟨?_, ?_, ?_⟩
  · obtain ⟨delta, heq, hsub, hmem⟩ := runRules_spec rules achs []
    refine ⟨delta, ?_, hsub, hmem⟩
    rw [heq]
    simp
  · intro a ha
    obtain ⟨d2, heq2, _, _⟩ := runRules_spec
      (achievementRules (lookupKey p statsMap) att sc t)
      ((lookupKey p achMap).getD []) []
    simp only [check_achievements]
    rw [lookupKey_upsert_self, heq2]
    simp only [Option.getD_some]
    exact List.mem_append_left _ ha
  · intro hnone
    obtain ⟨d3, heq3, _, hmem3⟩ := runRules_spec
      (achievementRules none att sc t) ((lookupKey p achMap).getD []) []
    constructor
    · simp only [check_achievements, hnone]
      rw [heq3]
      intro hin
      simp only [List.nil_append] at hin
      exact firstBlood_needs_stats att sc t (hmem3 _ hin).2
    · simp only [check_achievements, hnone]
      rw [heq3]
      intro hin
      simp only [List.nil_append] at hin
      exact champion_needs_stats att sc t (hmem3 _ hin).2

/-! ### Claim C4: is rounds_played bounded by rounds_total? -/

/-- Claim C4 as stated: over every sequence of start, startRound, guess and
endSession operations, every stored session satisfies
`rounds_played ≤ rounds_total`. -/
def RoundsBoundClaim : Prop :=
  ∀ (ops : List Op) (p : String) (s : Session),
    lookupKey p (runOps ops).sessions = some s →
    s.rounds_played ≤ s.rounds_total

/-- The round stored after the two explicit `start_round` calls of the C4
counterexample trace. -/
def ceRound : Round :=
  { secret_number := 1, attempts := 0, time_limit := none
    closest_distance := 50, double_score := false, extra_hints := 1
    powerup_used := none, active := true, round_num := 2
    offered_powerup := none }

/-- The session reached by the C4 counterexample trace: `rounds_played = 2`
yet `rounds_total = 1`. -/
def ceSession : Session :=
  { player := "ann", max_number := 50, difficulty_bonus := 1
    rounds_total := 1, rounds_played := 2, round_scores := []
    active_round := some ceRound, mode := "1", time_limit := none }

/-- Counterexample to C4 as stated: starting a single-round game and then
calling `start_round` twice leaves `rounds_played = 2 > 1 = rounds_total`,
because `start_round` increments the counter with no bound check. -/
theorem rounds_bound_counterexample : ¬ RoundsBoundClaim := by
  intro h
  have hlook : lookupKey "ann"
      (runOps [Op.startOp "ann" "1" "1" none, Op.startRoundOp "ann" 1 none,
        Op.startRoundOp "ann" 1 none]).sessions = some ceSession := rfl
  have hx := h [Op.startOp "ann" "1" "1" none, Op.startRoundOp "ann" 1 none,
    Op.startRoundOp "ann" 1 none] "ann" ceSession hlook
  exact absurd hx (by decide)

/-- Invariant maintained by every stored session when `start_round` is only
ever invoked implicitly (by the first guess of a session). -/
def SessionInv (s : Session) : Prop :=
  1 ≤ s.rounds_total ∧ s.rounds_played ≤ 1 ∧
    (s.active_round = none → s.rounds_played = 0)

/-- All stored sessions satisfy `SessionInv`. -/
def StateInv (st : EngineState) : Prop :=
  ∀ (p : String) (s : Session), lookupKey p st.sessions = some s → SessionInv s

theorem stateInv_of_upsert (st2 st : EngineState) (p : String) (s2 : Session)
    (hss : st2.sessions = upsert p s2 st.sessions)
    (hinv : StateInv st) (hs2 : SessionInv s2) : StateInv st2 := by
  intro q s hq
  rw [hss, lookupKey_upsert] at hq
  by_cases hqp : q = p
  · rw [if_pos hqp] at hq
    cases hq
    exact hs2
  · rw [if_neg hqp] at hq
    exact hinv q s hq

theorem start_game_inv (st : EngineState) (p m d : String) (cm : Option Int)
    (hinv : StateInv st) : StateInv (start_game st p m d cm) := by
  apply stateInv_of_upsert _ st p _ rfl hinv
  refine ⟨?_, by simp, by simp⟩
  show 1 ≤ (if m = "2" then 3 else 1)
  split <;> omega

theorem makeGuessActive_inv (st : EngineState) (p : String) (session : Session)
    (g : Option Int) (e : ℚ)
    (hinv : StateInv st) (hsess : SessionInv session) :
    StateInv (makeGuessActive st p session g e).1 := by
  cases har : session.active_round with
  | none =>
    unfold makeGuessActive
    simp only [har]
    exact hinv
  | some rnd =>
    unfold makeGuessActive
    simp only [har]
    repeat' split
    all_goals
      first
        | exact hinv
        | exact stateInv_of_upsert _ st p _ rfl hinv hsess
        | exact stateInv_of_upsert _ st p _ rfl hinv ⟨hsess.1, hsess.2.1, by simp⟩

theorem make_guess_inv (st : EngineState) (p : String) (g : Option Int)
    (e : ℚ) (sec : Int) (off : Option String)
    (hinv : StateInv st) : StateInv (make_guess st p g e sec off).1 := by
  unfold make_guess
  cases hls : lookupKey p st.sessions with
  | none => exact hinv
  | some session0 =>
    have hs0 : SessionInv session0 := hinv p session0 hls
    cases har : session0.active_round with
    | some rnd =>
      simp only [har]
      exact makeGuessActive_inv st p session0 g e hinv hs0
    | none =>
      have hp0 : session0.rounds_played = 0 := hs0.2.2 har
      have hs1 : SessionInv (startRoundSession session0 sec off) := by
        refine ⟨?_, ?_, ?_⟩
        · simpa [startRoundSession] using hs0.1
        · simp [startRoundSession, hp0]
        · simp [startRoundSession]
      simp only [har]
      exact makeGuessActive_inv st p _ g e hinv hs1

theorem end_session_inv (st : EngineState) (p : String)
    (hinv : StateInv st) : StateInv (end_session st p).1 := by
  unfold end_session
  cases hls : lookupKey p st.sessions with
  | none => exact hinv
  | some session =>
    intro q s hq
    simp only at hq
    rw [lookupKey_eraseKey] at hq
    split at hq
    · cases hq
    · exact hinv q s hq

theorem stepOp_inv (st : EngineState) (op : Op)
    (hop : op.isExplicitStartRound = false) (hinv : StateInv st) :
    StateInv (stepOp st op) := by
  cases op with
  | startOp p m d cm => exact start_game_inv st p m d cm hinv
  | startRoundOp p sec off => simp [Op.isExplicitStartRound] at hop
  | guessOp p g e sec off => exact make_guess_inv st p g e sec off hinv
  | endOp p => exact end_session_inv st p hinv

theorem runOps_inv (ops : List Op)
    (hops : ∀ op ∈ ops, op.isExplicitStartRound = false) :
    StateInv (runOps ops) := by
  have hgen : ∀ (l : List Op) (st : EngineState), StateInv st →
      (∀ op ∈ l, op.isExplicitStartRound = false) →
      StateInv (l.foldl stepOp st) := by
    intro l
    induction l with
    | nil =>
      intro st h _
      exact h
    | cons o rest ih =>
      intro st h hl
      exact ih (stepOp st o) (stepOp_inv st o (hl o (by simp)) h)
        (fun op hop => hl op (List.mem_cons_of_mem _ hop))
  refine hgen ops initState ?_ hops
  intro q s hq
  simp [initState, lookupKey] at hq

/-- Claim C4, amended: `rounds_played ≤ rounds_total` does hold for every
sequence of start, guess and endSession operations — where `start_round`
runs only implicitly, at most once per session, on a first guess — but an
explicit `startRound` call increments `rounds_played` unconditionally, so
traces with explicit `startRound` calls can exceed `rounds_total`. -/
theorem rounds_bound_without_explicit_start_round (ops : List Op)
    (hops : ∀ op ∈ ops, op.isExplicitStartRound = false)
    (p : String) (s : Session)
    (hs : lookupKey p (runOps ops).sessions = some s) :
    s.rounds_played ≤ s.rounds_total := by
  obtain ⟨h1, h2, _⟩ := runOps_inv ops hops p s hs
  omega

/-- The round stored after the C4 witness trace. -/
def wc4round : Round :=
  { secret_number := 10, attempts := 1, time_limit := none
    closest_distance := 7, double_score := false, extra_hints := 1
    powerup_used := none, active := true, round_num := 1
    offered_powerup := none }

/-- The session stored after the C4 witness trace. -/
def wc4session : Session :=
  { player := "ann", max_number := 50, difficulty_bonus := 1
    rounds_total := 1, rounds_played := 1, round_scores := []
    active_round := some wc4round, mode := "1", time_limit := none }

/-- Witness for the amended C4 on the trace start-then-guess. -/
theorem rounds_bound_without_explicit_start_round_witness :
    (∀ op ∈ ([Op.startOp "ann" "1" "1" none,
        Op.guessOp "ann" (some 3) 0 10 none] : List Op),
      op.isExplicitStartRound = false) ∧
    lookupKey "ann" (runOps [Op.startOp "ann" "1" "1" none,
        Op.guessOp "ann" (some 3) 0 10 none]).sessions = some wc4session ∧
    wc4session.rounds_played ≤ wc4session.rounds_total :=
  ⟨by decide, rfl,
    rounds_bound_without_explicit_start_round
      [Op.startOp "ann" "1" "1" none, Op.guessOp "ann" (some 3) 0 10 none]
      (by decide) "ann" wc4session rfl⟩

end GuessGame
